import Mathlib

/-!
Shallow embedding of the i3X SDK documentation's reference server code:
the application-level aggregation engine (`AggregationEngine` in the
performance-optimization document), the history/value/list request handlers,
and the `SubscriptionRepository` with its HTTP routes (implementation
patterns document).  Timestamps are modelled as seconds since the epoch
(`Nat`), numeric values as rationals, and Python exceptions as `Except`.
-/

set_option autoImplicit false

namespace I3X

/-- Equality of `Except` results is decidable componentwise; used to settle
concrete runs of the fallible aggregation engine by `decide`. -/
instance {ε α : Type} [DecidableEq ε] [DecidableEq α] : DecidableEq (Except ε α) := by
  intro a b
  cases a <;> cases b
  case error.error e f => exact decidable_of_iff (e = f) (by simp)
  case ok.ok x y => exact decidable_of_iff (x = y) (by simp)
  all_goals exact isFalse (by intro h; cases h)

@[simp] lemma except_bind_ok {ε α β : Type} (a : α) (f : α → Except ε β) :
    ((Except.ok a : Except ε α) >>= f) = f a := rfl

@[simp] lemma except_pure_eq_ok {ε α : Type} (a : α) :
    (pure a : Except ε α) = Except.ok a := rfl

/-- A time-series data point (VQT record).  `quality` is the literal string
stored in the source dicts (`'Good'`, `'Bad'`, ...); `t` is the timestamp in
seconds since the epoch (the source converts ISO strings with
`datetime.fromisoformat`, and all bucket arithmetic is on whole seconds). -/
structure Point where
  elementId : String
  value : ℚ
  t : Nat
  quality : String
  deriving Repr, DecidableEq

/-- The bucket record built by `AggregationEngine._compute_aggregate`:
`{'timestamp', 'value', 'quality', 'count'}`.  `value = none` models the
Python `None`. -/
structure Bucket where
  timestamp : Nat
  value : Option ℚ
  quality : String
  count : Nat
  deriving Repr, DecidableEq

/-- The list comprehension `[p['value'] for p in points if p['quality'] == 'Good']`. -/
def goodValues (points : List Point) : List ℚ :=
  (points.filter (fun p => p.quality == "Good")).map (fun p => p.value)

/-- Python `min` over a nonempty list, folded left as the builtin does. -/
def listMin (v : ℚ) : List ℚ → ℚ
  | [] => v
  | w :: ws => listMin (min v w) ws

/-- Python `max` over a nonempty list. -/
def listMax (v : ℚ) : List ℚ → ℚ
  | [] => v
  | w :: ws => listMax (max v w) ws

/-- `AggregationEngine._compute_aggregate(points, method, timestamp)`.
With no Good-quality values it returns the `value=None, quality='Bad',
count=0` bucket; otherwise it dispatches on the method name and raises
`ValueError` (modelled as `.error`) for any method other than
avg/min/max/sum/count. -/
def compute_aggregate (points : List Point) (method : String) (timestamp : Nat) :
    Except String Bucket :=
  match goodValues points with
  | [] => .ok ⟨timestamp, none, "Bad", 0⟩
  | v :: vs =>
    if method = "avg" then
      .ok ⟨timestamp, some ((v :: vs).sum / (v :: vs).length), "Good", (v :: vs).length⟩
    else if method = "min" then
      .ok ⟨timestamp, some (listMin v vs), "Good", (v :: vs).length⟩
    else if method = "max" then
      .ok ⟨timestamp, some (listMax v vs), "Good", (v :: vs).length⟩
    else if method = "sum" then
      .ok ⟨timestamp, some ((v :: vs).sum), "Good", (v :: vs).length⟩
    else if method = "count" then
      .ok ⟨timestamp, some ((v :: vs).length : ℚ), "Good", (v :: vs).length⟩
    else
      .error ("Unsupported aggregation method: " ++ method)

/-- `AggregationEngine._bucket_start_time(timestamp, interval)`:
`floor(seconds_since_epoch / interval) * interval`. -/
def bucket_start_time (t interval : Nat) : Nat :=
  t / interval * interval

/-- Result of `aggregate_time_series`: the method `'none'` returns the raw
point list, every other method returns a list of buckets. -/
inductive AggResult where
  | raw (points : List Point)
  | buckets (bs : List Bucket)
  deriving Repr, DecidableEq

/-- Stable sort by timestamp, modelling Python's `sorted(data_points,
key=lambda x: x['timestamp'])`. -/
def sortPoints (pts : List Point) : List Point :=
  List.insertionSort (fun a b => a.t ≤ b.t) pts

/-- The `for point in sorted(...)` loop of
`AggregationEngine.aggregate_time_series`, after the first point has fixed
the initial `bucket_start` (`bs`).  `cur` is `current_bucket`; crossing a
bucket boundary flushes `cur` through `_compute_aggregate` (guarded by the
source's `if current_bucket:` check) and restarts the bucket at the new
point's window.  A `ValueError` from `_compute_aggregate` aborts the whole
computation, as exception propagation does in the source. -/
def aggregate_loop (method : String) (interval : Nat) :
    List Point → List Point → Nat → Except String (List Bucket)
  | [], cur, bs =>
    if cur.isEmpty then .ok []
    else (compute_aggregate cur method bs).map (fun b => [b])
  | p :: rest, cur, bs =>
    if bs + interval ≤ p.t then
      if cur.isEmpty then
        aggregate_loop method interval rest [p] (bucket_start_time p.t interval)
      else do
        let b ← compute_aggregate cur method bs
        let tl ← aggregate_loop method interval rest [p] (bucket_start_time p.t interval)
        pure (b :: tl)
    else
      aggregate_loop method interval rest (cur ++ [p]) bs

/-- `AggregationEngine.aggregate_time_series(data_points, method,
interval_seconds)`.  For a nonempty sorted list the Python loop's first
iteration sets `bucket_start` from the first point and (for any positive
interval) places that point in `current_bucket`; the model enters
`aggregate_loop` in exactly that state.  (For `interval_seconds = 0` the
source raises `ZeroDivisionError`; the model is only used with positive
intervals.) -/
def aggregate_time_series (data_points : List Point) (method : String)
    (interval_seconds : Nat) : Except String AggResult :=
  if method = "none" then .ok (.raw data_points)
  else
    match sortPoints data_points with
    | [] => .ok (.buckets [])
    | p :: rest =>
      (aggregate_loop method interval_seconds rest [p]
        (bucket_start_time p.t interval_seconds)).map .buckets

/-- The aggregation methods `_compute_aggregate` actually computes. -/
def supported (m : String) : Prop :=
  m ∈ (["avg", "min", "max", "sum", "count"] : List String)

instance (m : String) : Decidable (supported m) := by
  unfold supported; infer_instance

/-- The bucket `_compute_aggregate` produces when it does not raise: the
`.ok` payload of `compute_aggregate` (its fallback default is never used for
a supported method). -/
def compute_ok (points : List Point) (method : String) (timestamp : Nat) : Bucket :=
  (compute_aggregate points method timestamp).toOption.getD ⟨timestamp, none, "Bad", 0⟩

/-- Distinct bucket-start times of a point list, collapsing a run that
continues the current window `bs`.  Applied after `bs` has been set from a
first point. -/
def window_list (interval bs : Nat) : List Point → List Nat
  | [] => []
  | p :: rest =>
    if bucket_start_time p.t interval = bs then window_list interval bs rest
    else bucket_start_time p.t interval ::
      window_list interval (bucket_start_time p.t interval) rest

/-- The distinct window-start times occupied by a (sorted) point list, in
order of first occurrence. -/
def occupied_windows (interval : Nat) : List Point → List Nat
  | [] => []
  | p :: rest =>
    bucket_start_time p.t interval ::
      window_list interval (bucket_start_time p.t interval) rest

lemma bucket_start_le (t I : Nat) : bucket_start_time t I ≤ t :=
  Nat.div_mul_le_self t I

lemma bucket_dvd (t I : Nat) : I ∣ bucket_start_time t I :=
  dvd_mul_left I (t / I)

/-- A timestamp inside the window `[bs, bs + I)` has window start `bs`. -/
lemma bucket_start_eq_of_mem {I bs t : Nat} (hd : I ∣ bs)
    (h1 : bs ≤ t) (h2 : t < bs + I) : bucket_start_time t I = bs := by
  obtain ⟨k, rfl⟩ := hd
  unfold bucket_start_time
  have hk : t / I = k := by
    refine Nat.div_eq_of_lt_le ?_ ?_
    · simpa [Nat.mul_comm] using h1
    · calc t < I * k + I := h2
        _ = (k + 1) * I := by ring
  rw [hk, Nat.mul_comm]

/-- A timestamp at or past the end of the window `[bs, bs + I)` has a window
start at least `bs + I`. -/
lemma bucket_start_ge {I bs t : Nat} (hI : 0 < I) (hd : I ∣ bs)
    (h : bs + I ≤ t) : bs + I ≤ bucket_start_time t I := by
  obtain ⟨k, rfl⟩ := hd
  have h1 : k + 1 ≤ t / I := by
    rw [Nat.le_div_iff_mul_le hI]
    calc (k + 1) * I = I * k + I := by ring
      _ ≤ t := h
  calc I * k + I = (k + 1) * I := by ring
    _ ≤ t / I * I := Nat.mul_le_mul_right I h1
    _ = bucket_start_time t I := rfl

lemma bucket_start_ne {I bs t : Nat} (hI : 0 < I) (hd : I ∣ bs)
    (h : bs + I ≤ t) : bucket_start_time t I ≠ bs := by
  have := bucket_start_ge hI hd h
  omega

/-- For a supported method, `_compute_aggregate` never raises and its value
is `compute_ok`. -/
lemma compute_aggregate_supported {m : String} (hm : supported m)
    (points : List Point) (ts : Nat) :
    compute_aggregate points m ts = .ok (compute_ok points m ts) := by
  have hm5 : m = "avg" ∨ m = "min" ∨ m = "max" ∨ m = "sum" ∨ m = "count" := by
    simpa [supported] using hm
  unfold compute_ok compute_aggregate
  cases hgv : goodValues points with
  | nil => rfl
  | cons v vs => rcases hm5 with rfl | rfl | rfl | rfl | rfl <;> rfl

lemma window_list_append_skip (I bs : Nat) (l1 l2 : List Point)
    (h : ∀ q ∈ l1, bucket_start_time q.t I = bs) :
    window_list I bs (l1 ++ l2) = window_list I bs l2 := by
  induction l1 with
  | nil => rfl
  | cons q l1 ih =>
    have hq := h q (by simp)
    simp only [List.cons_append, window_list, if_pos hq]
    exact ih fun r hr => h r (by simp [hr])

lemma window_list_mem (I : Nat) :
    ∀ (l : List Point) (bs : Nat) (w : Nat), w ∈ window_list I bs l →
      ∃ q ∈ l, w = bucket_start_time q.t I := by
  intro l
  induction l with
  | nil => intro bs w h; simp [window_list] at h
  | cons p rest ih =>
    intro bs w h
    unfold window_list at h
    by_cases hp : bucket_start_time p.t I = bs
    · rw [if_pos hp] at h
      obtain ⟨q, hq1, hq2⟩ := ih bs w h
      exact ⟨q, by simp [hq1], hq2⟩
    · rw [if_neg hp] at h
      rcases List.mem_cons.mp h with rfl | h2
      · exact ⟨p, by simp, rfl⟩
      · obtain ⟨q, hq1, hq2⟩ := ih _ w h2
        exact ⟨q, by simp [hq1], hq2⟩

lemma occupied_windows_mem (I : Nat) (l : List Point) (w : Nat)
    (h : w ∈ occupied_windows I l) : ∃ q ∈ l, w = bucket_start_time q.t I := by
  cases l with
  | nil => simp [occupied_windows] at h
  | cons p rest =>
    unfold occupied_windows at h
    rcases List.mem_cons.mp h with rfl | h2
    · exact ⟨p, by simp, rfl⟩
    · obtain ⟨q, hq1, hq2⟩ := window_list_mem I rest _ w h2
      exact ⟨q, by simp [hq1], hq2⟩

/-- Invariant-carrying characterization of the `aggregate_time_series` loop:
started on a sorted remainder with a nonempty current bucket whose points all
share the window of its first point `c0`, it emits exactly one bucket per
occupied window, each computed from the points of that window. -/
lemma aggregate_loop_spec {m : String} {I : Nat} (hm : supported m) (hI : 0 < I) :
    ∀ (rest cur : List Point) (c0 : Point),
      List.Pairwise (fun a b : Point => a.t ≤ b.t) (c0 :: (cur ++ rest)) →
      (∀ q ∈ cur, bucket_start_time q.t I = bucket_start_time c0.t I) →
      aggregate_loop m I rest (c0 :: cur) (bucket_start_time c0.t I) =
        .ok ((occupied_windows I (c0 :: (cur ++ rest))).map
          (fun w => compute_ok ((c0 :: (cur ++ rest)).filter
            (fun p => bucket_start_time p.t I == w)) m w)) := by
  intro rest
  induction rest with
  | nil =>
    intro cur c0 hsort hcur
    have hfil : (c0 :: cur).filter
        (fun p => bucket_start_time p.t I == bucket_start_time c0.t I) =
        c0 :: cur := by
      refine List.filter_eq_self.mpr ?_
      intro a ha
      rcases List.mem_cons.mp ha with rfl | ha2
      · simp
      · simp [hcur a ha2]
    have hwl : window_list I (bucket_start_time c0.t I) cur = [] := by
      have := window_list_append_skip I (bucket_start_time c0.t I) cur [] hcur
      simpa using this
    simp only [List.append_nil]
    simp only [aggregate_loop, List.isEmpty_cons]
    rw [compute_aggregate_supported hm]
    simp only [occupied_windows, hwl, List.map_cons, List.map_nil]
    rw [hfil]
    simp [Except.map]
  | cons p rest ih =>
    intro cur c0 hsort hcur
    have hc0bs : bucket_start_time c0.t I ≤ c0.t := bucket_start_le c0.t I
    have hc0p : c0.t ≤ p.t := by
      have := List.pairwise_cons.mp hsort
      exact this.1 p (by simp)
    by_cases hcross : bucket_start_time c0.t I + I ≤ p.t
    · -- `p` starts a new window: flush the current bucket.
      have hpne : bucket_start_time p.t I ≠ bucket_start_time c0.t I :=
        bucket_start_ne hI (bucket_dvd c0.t I) hcross
      have hrest_ge : ∀ q ∈ p :: rest,
          bucket_start_time c0.t I + I ≤ bucket_start_time q.t I := by
        intro q hq
        rcases List.mem_cons.mp hq with rfl | hq2
        · exact bucket_start_ge hI (bucket_dvd c0.t I) hcross
        · refine bucket_start_ge hI (bucket_dvd c0.t I) ?_
          have hpq : p.t ≤ q.t := by
            have h1 : List.Pairwise (fun a b : Point => a.t ≤ b.t) (cur ++ p :: rest) :=
              (List.pairwise_cons.mp hsort).2
            have h2 : List.Pairwise (fun a b : Point => a.t ≤ b.t) (p :: rest) :=
              h1.sublist (List.sublist_append_right cur (p :: rest))
            exact (List.pairwise_cons.mp h2).1 q hq2
          omega
      have hsort2 : List.Pairwise (fun a b : Point => a.t ≤ b.t) (p :: ([] ++ rest)) := by
        have h1 : List.Pairwise (fun a b : Point => a.t ≤ b.t) (cur ++ p :: rest) :=
          (List.pairwise_cons.mp hsort).2
        simpa using h1.sublist (List.sublist_append_right cur (p :: rest))
      have hihp := ih [] p hsort2 (by simp)
      simp only [List.nil_append] at hihp
      have hshape : c0 :: (cur ++ p :: rest) = (c0 :: cur) ++ (p :: rest) := rfl
      have hrestfil : ∀ w, bucket_start_time c0.t I + I ≤ w →
          (c0 :: cur).filter (fun q => bucket_start_time q.t I == w) = [] := by
        intro w hw
        refine List.filter_eq_nil_iff.mpr ?_
        intro a ha
        have ha2 : bucket_start_time a.t I = bucket_start_time c0.t I := by
          rcases List.mem_cons.mp ha with rfl | ha3
          · rfl
          · exact hcur a ha3
        simp only [beq_iff_eq, ha2]
        omega
      -- the current bucket filter collapses to `c0 :: cur`
      have hfilcur : ((c0 :: cur) ++ (p :: rest)).filter
          (fun q => bucket_start_time q.t I == bucket_start_time c0.t I) =
          c0 :: cur := by
        rw [List.filter_append]
        have h1 : ((c0 :: cur).filter
            (fun q => bucket_start_time q.t I == bucket_start_time c0.t I)) =
            c0 :: cur := by
          refine List.filter_eq_self.mpr ?_
          intro a ha
          rcases List.mem_cons.mp ha with rfl | ha2
          · simp
          · simp [hcur a ha2]
        have h2 : ((p :: rest).filter
            (fun q => bucket_start_time q.t I == bucket_start_time c0.t I)) = [] := by
          refine List.filter_eq_nil_iff.mpr ?_
          intro a ha
          have := hrest_ge a ha
          simp only [beq_iff_eq]
          omega
        rw [h1, h2, List.append_nil]
      -- windows of the whole list split as `bs :: windows (p :: rest)`
      have hwin : occupied_windows I (c0 :: (cur ++ p :: rest)) =
          bucket_start_time c0.t I :: occupied_windows I (p :: rest) := by
        simp only [occupied_windows]
        rw [window_list_append_skip I _ cur (p :: rest) hcur]
        simp only [window_list, if_neg hpne]
      -- on later windows, the filter ignores `c0 :: cur`
      have hfiltail : ∀ w ∈ occupied_windows I (p :: rest),
          ((c0 :: cur) ++ (p :: rest)).filter
              (fun q => bucket_start_time q.t I == w) =
            (p :: rest).filter (fun q => bucket_start_time q.t I == w) := by
        intro w hw
        obtain ⟨q, hq1, rfl⟩ := occupied_windows_mem I (p :: rest) w hw
        rw [List.filter_append, hrestfil _ (hrest_ge q hq1), List.nil_append]
      -- assemble
      unfold aggregate_loop
      rw [if_pos hcross, if_neg (by simp : ¬((c0 :: cur).isEmpty = true))]
      rw [compute_aggregate_supported hm, hihp]
      simp only [except_bind_ok, except_pure_eq_ok, hwin, List.map_cons]
      rw [hshape, hfilcur]
      congr 2
      exact (List.map_congr_left fun w hw => by rw [hfiltail w hw]).symm
    · -- `p` stays in the current window.
      have hpeq : bucket_start_time p.t I = bucket_start_time c0.t I := by
        refine bucket_start_eq_of_mem (bucket_dvd c0.t I) (by omega) (by omega)
      have hassoc : (cur ++ [p]) ++ rest = cur ++ p :: rest := by
        simp
      have hsort2 : List.Pairwise (fun a b : Point => a.t ≤ b.t)
          (c0 :: ((cur ++ [p]) ++ rest)) := by rw [hassoc]; exact hsort
      have hcur2 : ∀ q ∈ cur ++ [p],
          bucket_start_time q.t I = bucket_start_time c0.t I := by
        intro q hq
        rcases List.mem_append.mp hq with hq2 | hq2
        · exact hcur q hq2
        · simp only [List.mem_singleton] at hq2
          subst hq2
          exact hpeq
      have hihp := ih (cur ++ [p]) c0 hsort2 hcur2
      rw [hassoc] at hihp
      simp only [aggregate_loop, if_neg hcross]
      exact hihp

instance : IsTotal Point (fun a b => a.t ≤ b.t) :=
  ⟨fun a b => Nat.le_total a.t b.t⟩

instance : IsTrans Point (fun a b => a.t ≤ b.t) :=
  ⟨fun _ _ _ h1 h2 => Nat.le_trans h1 h2⟩

lemma sortPoints_pairwise (pts : List Point) :
    List.Pairwise (fun a b : Point => a.t ≤ b.t) (sortPoints pts) :=
  List.sorted_insertionSort _ pts

/-- C1 (amended): for every supported aggregation method and positive
interval, `aggregate_time_series` returns exactly one bucket per occupied
window — a window of the sorted input containing at least one point — each
bucket computed by `_compute_aggregate` from the points of its window (so a
window whose points all lack Good quality still yields its
`value=null, quality=Bad` bucket).  Windows containing no points produce no
bucket, so the sequence is not contiguous and its length is the number of
occupied windows, not `ceil((end-start)/interval)`. -/
theorem c1_buckets_occupied_windows_only (pts : List Point) (m : String)
    (I : Nat) (hm : supported m) (hI : 0 < I) :
    aggregate_time_series pts m I = .ok (.buckets
      ((occupied_windows I (sortPoints pts)).map
        (fun w => compute_ok ((sortPoints pts).filter
          (fun p => bucket_start_time p.t I == w)) m w))) := by
  have hm5 : m = "avg" ∨ m = "min" ∨ m = "max" ∨ m = "sum" ∨ m = "count" := by
    simpa [supported] using hm
  have hne : m ≠ "none" := by
    rcases hm5 with rfl | rfl | rfl | rfl | rfl <;> decide
  unfold aggregate_time_series
  rw [if_neg hne]
  cases hs : sortPoints pts with
  | nil => simp [occupied_windows]
  | cons p rest =>
    have hsorted := sortPoints_pairwise pts
    rw [hs] at hsorted
    have h := aggregate_loop_spec hm hI rest [] p (by simpa using hsorted) (by simp)
    simp only [List.nil_append] at h
    show Except.map AggResult.buckets
      (aggregate_loop m I rest [p] (bucket_start_time p.t I)) = _
    rw [h]
    simp [Except.map]

/-- The per-subscription record created by
`SubscriptionRepository.create_subscription`:
`{'id', 'created', 'monitored_items': [], 'queue': []}`.  The queue is the
plain Python list the source stores; nothing in the source bounds it. -/
structure Subscription where
  id : String
  created : String
  monitored_items : List String
  queue : List Point
  deriving Repr, DecidableEq

/-- The `self.subscriptions` dict, as an association list with unique keys. -/
def Repo : Type := List (String × Subscription)

instance : DecidableEq Repo := by
  unfold Repo; infer_instance

/-- Dict lookup `self.subscriptions.get(sub_id)`. -/
def lookupSub : Repo → String → Option Subscription
  | [], _ => none
  | (k, s) :: rest, sid => if k = sid then some s else lookupSub rest sid

/-- In-place mutation of the entry for `sid` (a no-op if absent, like the
guarded mutations in the source; keys are unique, one entry changes). -/
def updateSub : Repo → String → (Subscription → Subscription) → Repo
  | [], _, _ => []
  | (k, s) :: rest, sid, f =>
    if k = sid then (k, f s) :: updateSub rest sid f
    else (k, s) :: updateSub rest sid f

/-- Dict deletion `del self.subscriptions[sub_id]`. -/
def eraseSub (repo : Repo) (sid : String) : Repo :=
  repo.filter (fun kv => kv.1 ≠ sid)

namespace SubscriptionRepository

/-- `SubscriptionRepository.get_subscription`. -/
def get_subscription (repo : Repo) (sub_id : String) : Option Subscription :=
  lookupSub repo sub_id

/-- `SubscriptionRepository.delete_subscription`: deletes the entry and
reports whether it existed. -/
def delete_subscription (repo : Repo) (sub_id : String) : Bool × Repo :=
  if (lookupSub repo sub_id).isSome then (true, eraseSub repo sub_id)
  else (false, repo)

/-- `SubscriptionRepository.register_items`: extends `monitored_items` with
every supplied id, unconditionally, whenever the subscription exists; the
`max_depth` argument is accepted and dropped, and no id is resolved against
any object store. -/
def register_items (repo : Repo) (sub_id : String) (element_ids : List String)
    (max_depth : Nat) : Repo :=
  if (lookupSub repo sub_id).isSome then
    updateSub repo sub_id
      (fun s => { s with monitored_items := s.monitored_items ++ element_ids })
  else repo

/-- `SubscriptionRepository.unregister_items`: keeps the monitored ids not
listed in `element_ids`. -/
def unregister_items (repo : Repo) (sub_id : String)
    (element_ids : List String) : Repo :=
  if (lookupSub repo sub_id).isSome then
    updateSub repo sub_id
      (fun s => { s with monitored_items :=
        s.monitored_items.filter (fun e => e ∉ element_ids) })
  else repo

/-- `SubscriptionRepository.get_and_clear_queue`: returns the whole queue
and resets it to `[]`; for an unknown id it returns `[]` and leaves the
store untouched. -/
def get_and_clear_queue (repo : Repo) (sub_id : String) :
    List Point × Repo :=
  match lookupSub repo sub_id with
  | some s => (s.queue, updateSub repo sub_id (fun s2 => { s2 with queue := [] }))
  | none => ([], repo)

end SubscriptionRepository

/-- The `C` most recent entries of a queue: everything but the first
`length - C` items (the whole list when it is within the capacity). -/
def keep_recent (C : Nat) (l : List Point) : List Point :=
  l.drop (l.length - C)

/-- Modelled from the spec: the Change Notifier fan-out delivers a change
event into a matching subscription's queue, which the spec's data model and
subscription manager describe as bounded, FIFO, drop-oldest on overflow
(capacity `C`): the event is appended at the tail and, past the capacity,
the oldest entries are dropped from the head.  No enqueue routine appears
in the source `SubscriptionRepository`; only this delivery step is taken
from the spec. -/
def enqueue_event (C : Nat) (repo : Repo) (sub_id : String) (ev : Point) :
    Repo :=
  updateSub repo sub_id
    (fun s => { s with queue := keep_recent C (s.queue ++ [ev]) })

/-- Sequential spec-modelled delivery of several events to one
subscription, under the capacity `C`. -/
def enqueue_events (C : Nat) (repo : Repo) (sub_id : String)
    (evs : List Point) : Repo :=
  evs.foldl (fun r e => enqueue_event C r sub_id e) repo

/-- An HTTP response: status code plus JSON body. -/
structure Resp (α : Type) where
  status : Nat
  body : α
  deriving Repr, DecidableEq

/-- Body of the `/subscriptions/{id}/register` route: either the 422
validation detail or the success body `{'status': ..., 'count': ...}` —
there is no field for skipped ids. -/
inductive RegisterBody where
  | detail (loc : List String) (msg : String) (ty : String)
  | registered (status : String) (count : Nat)
  deriving Repr, DecidableEq

/-- Body of the `DELETE /subscriptions/{id}` route: empty 204 body or the
404 detail. -/
inductive DeleteBody where
  | empty
  | notFound (msg : String)
  deriving Repr, DecidableEq

/-- Route `POST /subscriptions/<sub_id>/register` (`register_monitored_items`
in the source): 422 when `elementIds` is empty, otherwise registers all ids
and answers `{'status': 'registered', 'count': len(element_ids)}` with 200 —
regardless of whether the subscription exists. -/
def register_monitored_items (repo : Repo) (sub_id : String)
    (element_ids : List String) (max_depth : Nat) : Resp RegisterBody × Repo :=
  if element_ids = [] then
    (⟨422, .detail ["body", "elementIds"] "elementIds required" "value_error"⟩,
      repo)
  else
    (⟨200, .registered "registered" element_ids.length⟩,
      SubscriptionRepository.register_items repo sub_id element_ids max_depth)

/-- Route `POST /subscriptions/<sub_id>/unregister`
(`unregister_monitored_items` in the source): always 200 with
`{'status': 'unregistered', 'count': len(element_ids)}`. -/
def unregister_monitored_items (repo : Repo) (sub_id : String)
    (element_ids : List String) : Resp (String × Nat) × Repo :=
  (⟨200, ("unregistered", element_ids.length)⟩,
    SubscriptionRepository.unregister_items repo sub_id element_ids)

/-- Route `DELETE /subscriptions/<sub_id>` (`delete_subscription` in the
source): 204 with empty body when the repository reports a deletion, 404
with a not-found detail otherwise. -/
def delete_subscription_route (repo : Repo) (sub_id : String) :
    Resp DeleteBody × Repo :=
  let r := SubscriptionRepository.delete_subscription repo sub_id
  if r.1 then (⟨204, .empty⟩, r.2)
  else (⟨404, .notFound "Subscription not found"⟩, r.2)

/-- Route `POST /subscriptions/<sub_id>/sync` (`subscription_sync` in the
source): returns `get_and_clear_queue` as the whole 200 body — a bare list
of updates; the response carries no other field. -/
def subscription_sync (repo : Repo) (sub_id : String) :
    Resp (List Point) × Repo :=
  let r := SubscriptionRepository.get_and_clear_queue repo sub_id
  (⟨200, r.1⟩, r.2)

/-- The shared id-normalization of the list/value/history handlers:
`element_ids = data.get('elementIds', [])`, then
`if element_id: element_ids = [element_id]`.  Python truthiness makes an
absent (`None`) or empty-string `elementId` fall through to `elementIds`. -/
def normalize_element_ids (element_id : Option String)
    (element_ids : List String) : List String :=
  match element_id with
  | some s => if s = "" then element_ids else [s]
  | none => element_ids

/-- A stored object record (only the identity matters for the handlers,
which pass ids straight to the data layer). -/
structure Obj where
  elementId : String
  deriving Repr, DecidableEq

/-- Request body of `POST /objects/list` and `POST /objects/related`. -/
structure ListBody where
  elementId : Option String
  elementIds : List String
  deriving Repr, DecidableEq

/-- Request body of `POST /objects/value`. -/
structure ValueBody where
  elementId : Option String
  elementIds : List String
  maxDepth : Nat
  deriving Repr, DecidableEq

/-- Request body of `POST /objects/history`.  `startTime`/`endTime` are the
already-parsed instants (the source parses ISO strings with
`datetime.fromisoformat` before use). -/
structure HistoryBody where
  elementId : Option String
  elementIds : List String
  startTime : Option Nat
  endTime : Option Nat
  maxDepth : Nat
  deriving Repr, DecidableEq

/-- Body of a façade response: the 422 validation detail or the JSON items. -/
inductive Payload (α : Type) where
  | detail (loc : List String) (msg : String) (ty : String)
  | items (xs : α)
  deriving Repr, DecidableEq

/-- Route `POST /objects/list` (`get_objects_by_ids` in the source),
parametrized by the platform data layer `repo.get_objects_by_ids`. -/
def get_objects_by_ids (repo : List String → List Obj) (b : ListBody) :
    Resp (Payload (List Obj)) :=
  let ids := normalize_element_ids b.elementId b.elementIds
  if ids = [] then
    ⟨422, .detail ["body"] "elementId or elementIds required" "value_error"⟩
  else ⟨200, .items (repo ids)⟩

/-- Route `POST /objects/value` (`get_object_value` in the source),
parametrized by `data_repo.get_object_value`. -/
def get_object_value (data_repo : List String → Nat → List Point)
    (b : ValueBody) : Resp (Payload (List Point)) :=
  let ids := normalize_element_ids b.elementId b.elementIds
  if ids = [] then
    ⟨422, .detail ["body"] "elementId or elementIds required" "value_error"⟩
  else ⟨200, .items (data_repo ids b.maxDepth)⟩

/-- Route `POST /objects/history` (`get_object_history` in the source),
parametrized by `data_repo.get_object_history`.  After id normalization and
time parsing the handler calls the data layer directly: it contains no
comparison of `startTime` with `endTime`. -/
def get_object_history
    (data_repo : List String → Option Nat → Option Nat → Nat → List Point)
    (b : HistoryBody) : Resp (Payload (List Point)) :=
  let ids := normalize_element_ids b.elementId b.elementIds
  if ids = [] then
    ⟨422, .detail ["body"] "elementId or elementIds required" "value_error"⟩
  else ⟨200, .items (data_repo ids b.startTime b.endTime b.maxDepth)⟩

lemma lookup_update_self (repo : Repo) (sid : String)
    (f : Subscription → Subscription) :
    lookupSub (updateSub repo sid f) sid = (lookupSub repo sid).map f := by
  induction repo with
  | nil => rfl
  | cons kv rest ih =>
    obtain ⟨k, s⟩ := kv
    by_cases hk : k = sid
    · subst hk; simp [updateSub, lookupSub]
    · simpa [updateSub, lookupSub, hk] using ih

lemma lookup_erase_self (repo : Repo) (sid : String) :
    lookupSub (eraseSub repo sid) sid = none := by
  induction repo with
  | nil => rfl
  | cons kv rest ih =>
    obtain ⟨k, s⟩ := kv
    by_cases hk : k = sid
    · simpa [eraseSub, hk] using ih
    · simpa [eraseSub, lookupSub, hk] using ih

/-- Trimming to the `C` most recent commutes with later arrivals: an entry
dropped on an earlier overflow can never be among the `C` most recent of
the full delivery sequence. -/
lemma keep_recent_append (C : Nat) (l l2 : List Point) :
    keep_recent C (keep_recent C l ++ l2) = keep_recent C (l ++ l2) := by
  unfold keep_recent
  by_cases h : l.length ≤ C
  · rw [show l.length - C = 0 from by omega, List.drop_zero]
  · have hlen : (l.drop (l.length - C)).length = C := by
      rw [List.length_drop]; omega
    simp only [List.length_append, hlen]
    rw [List.drop_append_eq_append_drop, List.drop_append_eq_append_drop,
      List.drop_drop, hlen]
    have e1 : l.length - C + (C + l2.length - C) = l.length + l2.length - C := by
      omega
    have e2 : C + l2.length - C - C = l.length + l2.length - C - l.length := by
      omega
    rw [e1, e2]

/-- After delivering `evs` to a subscription whose stored queue respects the
capacity, the stored queue holds the `C` most recent of the old queue
followed by the deliveries, in FIFO order. -/
lemma enqueue_events_lookup (C : Nat) (sid : String) :
    ∀ (evs : List Point) (repo : Repo) (s : Subscription),
      lookupSub repo sid = some s → s.queue.length ≤ C →
      lookupSub (enqueue_events C repo sid evs) sid =
        some { s with queue := keep_recent C (s.queue ++ evs) } := by
  intro evs
  induction evs with
  | nil =>
    intro repo s h hlen
    have h0 : keep_recent C (s.queue ++ []) = s.queue := by
      unfold keep_recent
      rw [List.append_nil, show s.queue.length - C = 0 from by omega,
        List.drop_zero]
    rw [h0]
    simpa [enqueue_events] using h
  | cons e evs ih =>
    intro repo s h hlen
    have h1 : lookupSub (enqueue_event C repo sid e) sid =
        some { s with queue := keep_recent C (s.queue ++ [e]) } := by
      simp [enqueue_event, lookup_update_self, h]
    have h2 : (keep_recent C (s.queue ++ [e])).length ≤ C := by
      unfold keep_recent
      rw [List.length_drop]
      omega
    have h3 := ih (enqueue_event C repo sid e) _ h1 h2
    have h4 : keep_recent C (keep_recent C (s.queue ++ [e]) ++ evs) =
        keep_recent C (s.queue ++ e :: evs) := by
      rw [keep_recent_append, List.append_assoc]
      rfl
    rw [h4] at h3
    simpa [enqueue_events] using h3

lemma subscription_sync_of_some {repo : Repo} {sid : String} {s : Subscription}
    (h : lookupSub repo sid = some s) :
    subscription_sync repo sid =
      (⟨200, s.queue⟩, updateSub repo sid (fun s2 => { s2 with queue := [] })) := by
  simp [subscription_sync, SubscriptionRepository.get_and_clear_queue, h]

lemma subscription_sync_of_none {repo : Repo} {sid : String}
    (h : lookupSub repo sid = none) :
    subscription_sync repo sid = (⟨200, []⟩, repo) := by
  simp [subscription_sync, SubscriptionRepository.get_and_clear_queue, h]

/-- C2 (amended): with delivery modelled from the spec as a bounded FIFO
queue of capacity `C` that drops the oldest on overflow, a fresh
subscription that receives `N > C` events without draining returns from
`sync` exactly the most recent `C` events — but no `droppedCount` reaches
the caller: the entire 200 response is the bare update list (the source
route returns `jsonify(updates)` alone, and nothing in the repository
counts drops). -/
theorem c2_bounded_queue_sync_most_recent (C : Nat) (repo : Repo)
    (sid : String) (s : Subscription) (evs : List Point)
    (h : lookupSub repo sid = some s) (hq : s.queue = [])
    (hC : C < evs.length) :
    (subscription_sync (enqueue_events C repo sid evs) sid).1 =
      ⟨200, evs.drop (evs.length - C)⟩ := by
  have hlen : s.queue.length ≤ C := by simp [hq]
  have h1 := enqueue_events_lookup C sid evs repo s h hlen
  rw [subscription_sync_of_some h1]
  simp [hq, keep_recent]

/-- C2 witness: capacity 2, three events — `sync` returns the last two. -/
theorem c2_bounded_queue_sync_most_recent_witness :
    (subscription_sync
        (enqueue_events 2 [("s", ⟨"s", "c", [], []⟩)] "s"
          [⟨"e", 1, 0, "Good"⟩, ⟨"e", 2, 1, "Good"⟩, ⟨"e", 3, 2, "Good"⟩])
        "s").1 =
      ⟨200, [⟨"e", 2, 1, "Good"⟩, ⟨"e", 3, 2, "Good"⟩]⟩ :=
  c2_bounded_queue_sync_most_recent 2 [("s", ⟨"s", "c", [], []⟩)] "s"
    ⟨"s", "c", [], []⟩
    [⟨"e", 1, 0, "Good"⟩, ⟨"e", 2, 1, "Good"⟩, ⟨"e", 3, 2, "Good"⟩]
    (by decide) (by decide) (by decide)

/-- C2 counterexample: under the spec's bounded drop-oldest delivery with
capacity `C = 2`, a fresh subscription receives `N = 3` events and `sync`
is called: the complete caller-visible response is status 200 with the bare
two-element update list (and the cleared store) — the claimed
`droppedCount == N - C = 1` appears nowhere in it.  The response shape is
source code: `subscription_sync` returns `jsonify(updates)` only, and
`get_and_clear_queue` tracks no drop count. -/
theorem c2_counterexample :
    subscription_sync
        (enqueue_events 2 [("s", ⟨"s", "c", [], []⟩)] "s"
          [⟨"e", 1, 0, "Good"⟩, ⟨"e", 2, 1, "Good"⟩, ⟨"e", 3, 2, "Good"⟩])
        "s" =
      (⟨200, [⟨"e", 2, 1, "Good"⟩, ⟨"e", 3, 2, "Good"⟩]⟩,
        [("s", ⟨"s", "c", [], []⟩)]) := by
  decide

/-- C8 (confirmed): `sync` on an existing subscription drains the stored
queue atomically — the 200 response body is the entire stored queue, the
FIFO-ordered event sequence exactly as held, the queue is left empty, and a
second `sync` with no intervening events returns an empty list. -/
theorem c8_sync_drains_queue (repo : Repo) (sid : String) (s : Subscription)
    (h : lookupSub repo sid = some s) :
    (subscription_sync repo sid).1 = ⟨200, s.queue⟩ ∧
    lookupSub (subscription_sync repo sid).2 sid =
      some { s with queue := [] } ∧
    (subscription_sync (subscription_sync repo sid).2 sid).1 = ⟨200, []⟩ := by
  have h2 := subscription_sync_of_some h
  have h3 : lookupSub (subscription_sync repo sid).2 sid =
      some { s with queue := [] } := by
    rw [h2]
    simp [lookup_update_self, h]
  refine ⟨?_, h3, ?_⟩
  · rw [h2]
  · rw [subscription_sync_of_some h3]

/-- C3 (amended): `register` has no partial-success semantics: whenever the
subscription exists and at least one id is supplied, every supplied
elementId — resolvable or not — is appended to `monitored_items` (no object
store is consulted), and the 200 response is
`{'status': 'registered', 'count': len(elementIds)}` with no skipped set. -/
theorem c3_register_appends_all_ids (repo : Repo) (sid : String)
    (s : Subscription) (ids : List String) (d : Nat)
    (h : lookupSub repo sid = some s) (hne : ids ≠ []) :
    (register_monitored_items repo sid ids d).1 =
      ⟨200, .registered "registered" ids.length⟩ ∧
    lookupSub (register_monitored_items repo sid ids d).2 sid =
      some { s with monitored_items := s.monitored_items ++ ids } := by
  have hsome : (lookupSub repo sid).isSome = true := by rw [h]; rfl
  constructor
  · simp [register_monitored_items, hne]
  · simp [register_monitored_items, hne, SubscriptionRepository.register_items,
      hsome, lookup_update_self, h]

/-- C3 witness: registering one id on an existing subscription. -/
theorem c3_register_appends_all_ids_witness :
    (register_monitored_items [("s", ⟨"s", "c", [], []⟩)] "s" ["ghost"] 1).1 =
      ⟨200, .registered "registered" 1⟩ ∧
    lookupSub (register_monitored_items [("s", ⟨"s", "c", [], []⟩)] "s"
        ["ghost"] 1).2 "s" = some ⟨"s", "c", [] ++ ["ghost"], []⟩ :=
  c3_register_appends_all_ids [("s", ⟨"s", "c", [], []⟩)] "s" ⟨"s", "c", [], []⟩
    ["ghost"] 1 (by decide) (by decide)

/-- C3 counterexample: `"ghost"` resolves to no object (the handler and the
repository consult no object store at all), yet it is appended to
`monitored_items` instead of being skipped, and the response body is
`{'status': 'registered', 'count': 1}` — a `RegisterBody` which has no
skipped-ids field, unlike the `{registered, skipped}` shape the claim
requires. -/
theorem c3_counterexample :
    register_monitored_items [("s", ⟨"s", "c", [], []⟩)] "s" ["ghost"] 1 =
      (⟨200, .registered "registered" 1⟩, [("s", ⟨"s", "c", ["ghost"], []⟩)]) := by
  decide

/-- C4 (amended): deleting an existing subscription returns 204 and removes
it, but a DELETE of an already-deleted (or unknown) subscriptionId returns
404 Not Found with the store unchanged — so a second DELETE of the same id
fails with 404 rather than succeeding. -/
theorem c4_delete_then_404 (repo : Repo) (sid : String) :
    (lookupSub repo sid = none →
      delete_subscription_route repo sid =
        (⟨404, .notFound "Subscription not found"⟩, repo)) ∧
    (∀ s, lookupSub repo sid = some s →
      (delete_subscription_route repo sid).1 = ⟨204, .empty⟩ ∧
      lookupSub (delete_subscription_route repo sid).2 sid = none) := by
  constructor
  · intro h
    simp [delete_subscription_route, SubscriptionRepository.delete_subscription, h]
  · intro s h
    have hsome : (lookupSub repo sid).isSome = true := by rw [h]; rfl
    constructor
    · simp [delete_subscription_route,
        SubscriptionRepository.delete_subscription, hsome]
    · simp [delete_subscription_route,
        SubscriptionRepository.delete_subscription, hsome, lookup_erase_self]

/-- C4 witness: both branches at a concrete store. -/
theorem c4_delete_then_404_witness :
    (delete_subscription_route ([] : Repo) "s" =
      (⟨404, .notFound "Subscription not found"⟩, [])) ∧
    (delete_subscription_route [("s", ⟨"s", "c", [], []⟩)] "s").1 =
      ⟨204, .empty⟩ ∧
    lookupSub (delete_subscription_route [("s", ⟨"s", "c", [], []⟩)] "s").2
      "s" = none :=
  ⟨(c4_delete_then_404 [] "s").1 (by decide),
    (c4_delete_then_404 [("s", ⟨"s", "c", [], []⟩)] "s").2 ⟨"s", "c", [], []⟩
      (by decide)⟩

/-- C4 counterexample: the first DELETE answers 204, but repeating the same
DELETE answers 404 — the double-delete is an error response, contradicting
the claimed idempotent no-error behavior. -/
theorem c4_counterexample :
    (delete_subscription_route [("s", ⟨"s", "c", [], []⟩)] "s").1.status = 204 ∧
    (delete_subscription_route
        (delete_subscription_route [("s", ⟨"s", "c", [], []⟩)] "s").2
        "s").1.status = 404 := by
  decide

/-- C10 (amended): for a subscriptionId absent from the store, `register`
(with a nonempty id list), `unregister` and `sync` all answer 200 with no
state change — `register` reports `count = len(elementIds)`, `sync` returns
an empty list, and none of the three returns 404.  (With an empty
`elementIds` list, `register` instead returns 422, for any subscription.) -/
theorem c10_missing_subscription_silent_success (repo : Repo) (sid : String)
    (ids : List String) (d : Nat) (h : lookupSub repo sid = none)
    (hne : ids ≠ []) :
    register_monitored_items repo sid ids d =
      (⟨200, .registered "registered" ids.length⟩, repo) ∧
    unregister_monitored_items repo sid ids =
      (⟨200, ("unregistered", ids.length)⟩, repo) ∧
    subscription_sync repo sid = (⟨200, []⟩, repo) := by
  have hnone : (lookupSub repo sid).isSome = false := by rw [h]; rfl
  refine ⟨?_, ?_, subscription_sync_of_none h⟩
  · simp [register_monitored_items, hne,
      SubscriptionRepository.register_items, hnone]
  · simp [unregister_monitored_items,
      SubscriptionRepository.unregister_items, hnone]

/-- C10 witness: the three routes on an empty store. -/
theorem c10_missing_subscription_silent_success_witness :
    register_monitored_items ([] : Repo) "missing" ["x"] 1 =
      (⟨200, .registered "registered" 1⟩, []) ∧
    unregister_monitored_items ([] : Repo) "missing" ["x"] =
      (⟨200, ("unregistered", 1)⟩, []) ∧
    subscription_sync ([] : Repo) "missing" = (⟨200, []⟩, []) :=
  c10_missing_subscription_silent_success [] "missing" ["x"] 1 (by decide)
    (by decide)

/-- C10 counterexample: `register` on a nonexistent subscription with an
empty `elementIds` list answers 422, not the claimed 200 with
`count == number of ids supplied (0)`. -/
theorem c10_counterexample :
    register_monitored_items ([] : Repo) "missing" [] 1 =
      (⟨422, .detail ["body", "elementIds"] "elementIds required"
        "value_error"⟩, []) := by
  decide

/-- C5 (amended): the history handler performs no ordering check on the
parsed time range: for every request with `startTime > endTime` (and at
least one element id) and every data-layer result, it answers 200 with
whatever the data layer returns — no `InvalidRange`/422 is produced. -/
theorem c5_history_no_range_validation
    (data_repo : List String → Option Nat → Option Nat → Nat → List Point)
    (b : HistoryBody) (s e : Nat) (hs : b.startTime = some s)
    (he : b.endTime = some e) (hlt : e < s)
    (hids : normalize_element_ids b.elementId b.elementIds ≠ []) :
    get_object_history data_repo b =
      ⟨200, .items (data_repo (normalize_element_ids b.elementId b.elementIds)
        b.startTime b.endTime b.maxDepth)⟩ := by
  simp [get_object_history, hids]

/-- C5 witness: a concrete inverted range (start=100 > end=0). -/
theorem c5_history_no_range_validation_witness :
    get_object_history (fun _ _ _ _ => []) ⟨none, ["x"], some 100, some 0, 1⟩ =
      ⟨200, .items ((fun _ _ _ _ => ([] : List Point))
        (normalize_element_ids none ["x"]) (some 100) (some 0) 1)⟩ :=
  c5_history_no_range_validation (fun _ _ _ _ => []) ⟨none, ["x"], some 100, some 0, 1⟩
    100 0 rfl rfl (by decide) (by decide)

/-- C5 counterexample: a history request with startTime=100 and endTime=0
(start strictly greater than end) succeeds with HTTP 200 — the handler
returns the data-layer result instead of the claimed
`ValidationError::InvalidRange` 422. -/
theorem c5_counterexample :
    (get_object_history (fun _ _ _ _ => [])
        ⟨none, ["x"], some 100, some 0, 1⟩).status = 200 := by
  decide

/-- C9 (amended): a present and non-empty `elementId` takes precedence —
each of the three handlers then behaves exactly as if the body carried only
`elementIds = [elementId]`, whatever `elementIds` was sent.  (A present but
empty-string `elementId` is falsy in Python and is ignored instead.) -/
theorem c9_element_id_precedence (s : String) (hs : s ≠ "")
    (orepo : List String → List Obj) (vrepo : List String → Nat → List Point)
    (hrepo : List String → Option Nat → Option Nat → Nat → List Point)
    (eids : List String) (st en : Option Nat) (d : Nat) :
    get_objects_by_ids orepo ⟨some s, eids⟩ =
      get_objects_by_ids orepo ⟨none, [s]⟩ ∧
    get_object_value vrepo ⟨some s, eids, d⟩ =
      get_object_value vrepo ⟨none, [s], d⟩ ∧
    get_object_history hrepo ⟨some s, eids, st, en, d⟩ =
      get_object_history hrepo ⟨none, [s], st, en, d⟩ := by
  refine ⟨?_, ?_, ?_⟩ <;>
    simp [get_objects_by_ids, get_object_value, get_object_history,
      normalize_element_ids, hs]

/-- C9 witness: the three handlers at a concrete body. -/
theorem c9_element_id_precedence_witness :
    get_objects_by_ids (fun ids => ids.map Obj.mk) ⟨some "a", ["b", "c"]⟩ =
      get_objects_by_ids (fun ids => ids.map Obj.mk) ⟨none, ["a"]⟩ ∧
    get_object_value (fun _ _ => []) ⟨some "a", ["b", "c"], 1⟩ =
      get_object_value (fun _ _ => []) ⟨none, ["a"], 1⟩ ∧
    get_object_history (fun _ _ _ _ => []) ⟨some "a", ["b", "c"], none, none, 1⟩ =
      get_object_history (fun _ _ _ _ => []) ⟨none, ["a"], none, none, 1⟩ :=
  c9_element_id_precedence "a" (by decide) (fun ids => ids.map Obj.mk)
    (fun _ _ => []) (fun _ _ _ _ => []) ["b", "c"] none none 1

/-- C9 counterexample: a body that contains both keys, with
`elementId = ""`: Python's truthiness test discards the empty string, so the
handler uses `elementIds = ["a"]` — not `[elementId] = [""]` as the claim
requires for every body containing both fields. -/
theorem c9_counterexample :
    get_objects_by_ids (fun ids => ids.map Obj.mk) ⟨some "", ["a"]⟩ =
      ⟨200, .items [⟨"a"⟩]⟩ ∧
    get_objects_by_ids (fun ids => ids.map Obj.mk) ⟨some "", ["a"]⟩ ≠
      get_objects_by_ids (fun ids => ids.map Obj.mk) ⟨none, [""]⟩ := by
  constructor
  · decide
  · decide

/-- C8 witness: a concrete drain of a stored two-event queue. -/
theorem c8_sync_drains_queue_witness :
    (subscription_sync [("s", ⟨"s", "c", ["e"],
        [⟨"e", 1, 0, "Good"⟩, ⟨"e", 2, 1, "Good"⟩]⟩)] "s").1 =
      ⟨200, [⟨"e", 1, 0, "Good"⟩, ⟨"e", 2, 1, "Good"⟩]⟩ ∧
    lookupSub (subscription_sync [("s", ⟨"s", "c", ["e"],
        [⟨"e", 1, 0, "Good"⟩, ⟨"e", 2, 1, "Good"⟩]⟩)] "s").2 "s" =
      some ⟨"s", "c", ["e"], []⟩ ∧
    (subscription_sync (subscription_sync [("s", ⟨"s", "c", ["e"],
        [⟨"e", 1, 0, "Good"⟩, ⟨"e", 2, 1, "Good"⟩]⟩)] "s").2 "s").1 =
      ⟨200, []⟩ :=
  c8_sync_drains_queue
    [("s", ⟨"s", "c", ["e"], [⟨"e", 1, 0, "Good"⟩, ⟨"e", 2, 1, "Good"⟩]⟩)]
    "s" ⟨"s", "c", ["e"], [⟨"e", 1, 0, "Good"⟩, ⟨"e", 2, 1, "Good"⟩]⟩
    (by decide)

/-- C1 witness: for points at t=0 and t=25 with interval 10 and method
`min`, the characterization holds and yields the two occupied windows 0 and
20 only. -/
theorem c1_buckets_occupied_windows_only_witness :
    supported "min" ∧ 0 < 10 ∧
    aggregate_time_series [⟨"e", 1, 0, "Good"⟩, ⟨"e", 2, 25, "Good"⟩] "min" 10 =
      .ok (.buckets
        ((occupied_windows 10
            (sortPoints [⟨"e", 1, 0, "Good"⟩, ⟨"e", 2, 25, "Good"⟩])).map
          (fun w => compute_ok
            ((sortPoints [⟨"e", 1, 0, "Good"⟩, ⟨"e", 2, 25, "Good"⟩]).filter
              (fun p => bucket_start_time p.t 10 == w)) "min" w))) :=
  ⟨by decide, by decide,
    c1_buckets_occupied_windows_only
      [⟨"e", 1, 0, "Good"⟩, ⟨"e", 2, 25, "Good"⟩] "min" 10 (by decide)
      (by decide)⟩

/-- C1 counterexample: for Good points at t=0 and t=25 (both inside the
range [0,30)) with interval 10, the engine returns 2 buckets, at windows 0
and 20 only — not the claimed `ceil((30-0)/10) = 3` contiguous buckets: the
empty window [10,20) is omitted instead of being present with `value=null,
quality=Bad`. -/
theorem c1_counterexample :
    aggregate_time_series [⟨"e", 1, 0, "Good"⟩, ⟨"e", 2, 25, "Good"⟩] "min" 10 =
      .ok (.buckets [⟨0, some 1, "Good", 1⟩, ⟨20, some 2, "Good", 1⟩]) ∧
    ([(⟨0, some 1, "Good", 1⟩ : Bucket), ⟨20, some 2, "Good", 1⟩].length ≠
      (30 - 0 + 10 - 1) / 10) := by
  exact ⟨by decide, by decide⟩

/-- C6: evaluation at the failing inputs — for a bucket holding one
Good-quality point, the methods `stddev`, `first`, `last` and `range`
(all documented as supported aggregation methods in the repository's data
models document) make the engine raise
`ValueError: Unsupported aggregation method`, instead of returning an
aggregated value. -/
theorem c6_documented_methods_raise :
    aggregate_time_series [⟨"e", 1, 0, "Good"⟩] "stddev" 10 =
      .error "Unsupported aggregation method: stddev" ∧
    aggregate_time_series [⟨"e", 1, 0, "Good"⟩] "first" 10 =
      .error "Unsupported aggregation method: first" ∧
    aggregate_time_series [⟨"e", 1, 0, "Good"⟩] "last" 10 =
      .error "Unsupported aggregation method: last" ∧
    aggregate_time_series [⟨"e", 1, 0, "Good"⟩] "range" 10 =
      .error "Unsupported aggregation method: range" := by
  refine ⟨by decide, by decide, by decide, by decide⟩

/-- C7 (confirmed): `_compute_aggregate` considers only Good-quality
points — its result is unchanged when the non-Good points are removed — and
a bucket whose points all lack Good quality yields the
`value=null, quality=Bad, count=0` record (for every method, since the
empty-values check precedes method dispatch). -/
theorem c7_quality_filtering (points : List Point) (m : String) (ts : Nat) :
    compute_aggregate points m ts =
      compute_aggregate (points.filter (fun p => p.quality == "Good")) m ts ∧
    ((∀ p ∈ points, p.quality ≠ "Good") →
      compute_aggregate points m ts = .ok ⟨ts, none, "Bad", 0⟩) := by
  constructor
  · have h : goodValues (points.filter (fun p => p.quality == "Good")) =
        goodValues points := by
      simp [goodValues, List.filter_filter]
    unfold compute_aggregate
    rw [h]
  · intro h
    have hg : goodValues points = [] := by
      simp only [goodValues, List.map_eq_nil_iff]
      refine List.filter_eq_nil_iff.mpr ?_
      intro a ha
      simpa using h a ha
    unfold compute_aggregate
    rw [hg]

/-- C7 witness: a bucket containing one point of quality `Bad`. -/
theorem c7_quality_filtering_witness :
    compute_aggregate [⟨"e", 5, 3, "Bad"⟩] "avg" 0 =
      compute_aggregate (([⟨"e", 5, 3, "Bad"⟩] : List Point).filter
        (fun p => p.quality == "Good")) "avg" 0 ∧
    compute_aggregate [⟨"e", 5, 3, "Bad"⟩] "avg" 0 = .ok ⟨0, none, "Bad", 0⟩ :=
  ⟨(c7_quality_filtering [⟨"e", 5, 3, "Bad"⟩] "avg" 0).1,
    (c7_quality_filtering [⟨"e", 5, 3, "Bad"⟩] "avg" 0).2 (by decide)⟩

end I3X
